import Mathlib

/-!
Verification development for the incremental cache-reconciliation and
stream-normalization core of the Vive-Trading frontend.

The JavaScript sources are shallowly embedded as pure Lean functions:

* JS runtime values are modelled by the inductive type `J` (undefined, null,
  NaN, booleans, numbers as rationals, strings, arrays, objects).
* Mutation is modelled by explicit state passing: a function that mutates an
  argument array is embedded as a function returning the post-call content of
  that array.
* Thrown exceptions (`TypeError` on property access of `undefined`/`null`,
  `.map`/`.forEach` on non-arrays, ...) are modelled with `Except String`;
  a surrounding `try`/`catch` is modelled by matching on the `Except`.
* JS numbers are IEEE doubles; all numeric values handled by this code
  (epoch milliseconds, day differences, user ids) are integers far below
  2^53, where double arithmetic is exact, so rationals/integers model them
  faithfully.

Embedded sources:
* `src/frontend/src/services/POST/LoginfetchAllData.jsx` (namespace `PostSvc`)
* `src/frontend/src/services/Http_Post.jsx` (namespace `HttpPost`)
* `src/frontend/src/pages/home.jsx` (namespaces `HomeCache`, `HomeRetry`)
* `src/frontend/src/components/Http_Get.jsx` (namespace `HttpGet`)
* `src/frontend/src/components/Socket.jsx` (namespace `SocketNs`)
-/

/-- JS runtime values: `undefined`, `null`, `NaN`, booleans, finite numbers
(as rationals; all numbers this code handles are exactly representable
doubles), strings, arrays and plain objects (ordered field lists). -/
inductive J where
  | undef
  | null
  | nan
  | b (v : Bool)
  | n (v : ℚ)
  | s (v : String)
  | arr (elems : List J)
  | obj (fields : List (String × J))

/-- JS truthiness: `undefined`, `null`, `NaN`, `false`, `0` and `""` are
falsy; every other value (including all arrays and objects) is truthy. -/
def truthy : J → Bool
  | .undef => false
  | .null => false
  | .nan => false
  | .b v => v
  | .n v => decide (v ≠ 0)
  | .s v => decide (v ≠ "")
  | .arr _ => true
  | .obj _ => true

/-- JS strict equality `===` on embedded values. Primitives compare by
value (`NaN === NaN` is `false`). On arrays and objects `===` is reference
equality; in this value embedding distinct literals denote distinct heap
objects, so the composite cases are `false`. -/
def jeqStrict : J → J → Bool
  | .undef, .undef => true
  | .null, .null => true
  | .b x, .b y => x == y
  | .n x, .n y => x == y
  | .s x, .s y => x == y
  | _, _ => false

/-- SameValueZero equality, used by `Map` keys: like `===` but
`NaN` equals `NaN`. -/
def jeqSVZ : J → J → Bool
  | .nan, .nan => true
  | x, y => jeqStrict x y

/-- Property read `j[k]` on a value that is neither `undefined` nor `null`:
objects yield the first binding of the key (or `undefined` when absent),
all other primitives have none of the properties this code reads. -/
def jGet (j : J) (k : String) : J :=
  match j with
  | .obj fs => ((fs.find? fun f => f.1 == k).map fun f => f.2).getD .undef
  | _ => J.undef

/-- Property read `j.k` with JS error semantics: reading a property of
`undefined` or `null` throws a `TypeError`. -/
def jGetE (j : J) (k : String) : Except String J :=
  match j with
  | .undef => .error "TypeError"
  | .null => .error "TypeError"
  | _ => .ok (jGet j k)

/-- JS `a || b`: `a` when `a` is truthy, otherwise `b`. -/
def jsOr (a b : J) : J :=
  if truthy a then a else b

/-- One backend day-record (one observation for one user) as the wallet
endpoints deliver it: a JS object; absent fields are `undefined`. -/
structure DayRec where
  userId : J := .undef
  username : J := .undef
  colors : J := .undef
  logo : J := .undef
  usemodel : J := .undef
  why : J := .undef
  position : J := .undef
  total : J := .undef
  time : J := .undef
  non : J := .undef
  bit : J := .undef
  btc : J := .undef
  eth : J := .undef
  dog : J := .undef
  doge : J := .undef
  sol : J := .undef
  xrp : J := .undef

namespace PostSvc

/-- Embeds the `ex_data.find(userArr => userArr[0].userId === userId)` scan
inside `data_sum` (src/frontend/src/services/POST/LoginfetchAllData.jsx,
lines 3-16), returning the index of the matched element so that the in-place
`push` can be modelled by `List.set`. Evaluating the predicate on an empty
user array reads `undefined[0].userId` and throws a `TypeError`; `find`
stops at the first match, so arrays after a match are not inspected. -/
def findUserIdx (uid : J) : List (List DayRec) → Except String (Option Nat)
  | [] => .ok none
  | userArr :: rest =>
    match userArr.head? with
    | none => .error "TypeError"
    | some d0 =>
      if jeqStrict d0.userId uid then .ok (some 0)
      else (findUserIdx uid rest).map fun o => o.map fun i => i + 1

/-- One iteration of the `new_data.forEach(newUserArr => ...)` body of
`data_sum`: `newUserArr[0].userId` throws on an empty block; a matched
existing block is extended in place (`existingUserArr.push(...newUserArr)`),
an unmatched block is appended (`ex_data.push(newUserArr)`). The state is
the current content of the `ex_data` array. -/
def data_sumStep (st : List (List DayRec)) (newUserArr : List DayRec) :
    Except String (List (List DayRec)) :=
  match newUserArr.head? with
  | none => .error "TypeError"
  | some d0 =>
    (findUserIdx d0.userId st).map fun found =>
      match found with
      | some i => st.set i (st.getD i [] ++ newUserArr)
      | none => st ++ [newUserArr]

/-- Embedding of `data_sum(ex_data, new_data)`
(src/frontend/src/services/POST/LoginfetchAllData.jsx, lines 3-16).
The source mutates `ex_data` in place and then returns `ex_data` itself;
in this state-passing embedding the result is the final content of the
`ex_data` array, which is simultaneously the returned value. -/
def data_sum (ex_data new_data : List (List DayRec)) :
    Except String (List (List DayRec)) :=
  new_data.foldlM data_sumStep ex_data

/-- Post-call content of the `ex_data` argument of `data_sum`. The source
returns the very array it mutated, so the post-state of the argument and
the returned value are one and the same list. -/
def ex_dataAfter (ex_data new_data : List (List DayRec)) :
    Except String (List (List DayRec)) :=
  data_sum ex_data new_data

/-- First user id of a per-user block, as `data_sum` reads it
(`newUserArr[0].userId`). -/
def headUserId (u : List DayRec) : Option J :=
  u.head?.map fun d => d.userId

end PostSvc

/-- Gregorian date of an epoch day number (days since 1970-01-01, may be
negative), as the `getUTCFullYear`/`getUTCMonth`/`getUTCDate` accessors
report it. Standard civil-from-days computation. -/
def civilFromDays (z0 : Int) : Int × Int × Int :=
  let z := z0 + 719468
  let era := Int.fdiv z 146097
  let doe := z - era * 146097
  let yoe := Int.tdiv (doe - Int.tdiv doe 1460 + Int.tdiv doe 36524 - Int.tdiv doe 146096) 365
  let y := yoe + era * 400
  let doy := doe - (365 * yoe + Int.tdiv yoe 4 - Int.tdiv yoe 100)
  let mp := Int.tdiv (5 * doy + 2) 153
  let d := doy - Int.tdiv (153 * mp + 2) 5 + 1
  let m := mp + (if mp < 10 then 3 else -9)
  (y + (if m ≤ 2 then 1 else 0), m, d)

/-- Epoch day number of a Gregorian date (inverse of `civilFromDays`);
out-of-range day components are carried over linearly, exactly as
`Date.UTC` normalizes them. -/
def daysFromCivil (y0 m d : Int) : Int :=
  let y := y0 - (if m ≤ 2 then 1 else 0)
  let era := Int.fdiv y 400
  let yoe := y - era * 400
  let mp := if m > 2 then m - 3 else m + 9
  let doy := Int.tdiv (153 * mp + 2) 5 + d - 1
  let doe := yoe * 365 + Int.tdiv yoe 4 - Int.tdiv yoe 100 + doy
  era * 146097 + doe - 719468

/-- `String(component).padStart(2, '0')` for the nonnegative date/time
components produced by the UTC accessors. -/
def pad2 (n : Int) : String :=
  let s := toString n
  if s.length < 2 then "0" ++ s else s

namespace PostSvc

/-- Embedding of `formatToYYMMDDHHMM(dateStr)`
(src/frontend/src/services/POST/LoginfetchAllData.jsx, lines 18-28):
`new Date(dateStr)` followed by UTC component formatting. Only numeric
epoch-millisecond inputs are modelled (`new Date` clips them to an integer);
every non-numeric input is mapped to the invalid-date rendering, in which
each component formats as `"NaN"` (string-date parsing is outside this
embedding and no theorem below evaluates the formatter on a string). -/
def formatToYYMMDDHHMM (dateStr : J) : String :=
  match dateStr with
  | .n q =>
    let ms : Int := Int.tdiv q.num (q.den : Int)
    let days := Int.fdiv ms 86400000
    let msod := ms - days * 86400000
    let ymd := civilFromDays days
    let hh := Int.fdiv msod 3600000
    let mi := Int.fmod (Int.fdiv msod 60000) 60
    toString ymd.1 ++ pad2 ymd.2.1 ++ pad2 ymd.2.2 ++ pad2 hh ++ pad2 mi
  | _ => "NaN" ++ "NaN" ++ "NaN" ++ "NaN" ++ "NaN"

/-- One element of the intermediate `userData` array built by the `allData`
mapping (lines 83-95): the per-day object with renamed fields
(`time` formatted, `dog` read from `doge`, `bit` read from `bit`). -/
structure ProjDay where
  why : J
  position : J
  total : J
  time : J
  non : J
  bit : J
  eth : J
  dog : J
  sol : J
  xrp : J
  usemodel : J

/-- The per-day arrow function of the `allData` mapping (lines 84-95). -/
def mapDay (dayArray : DayRec) : ProjDay :=
  { why := dayArray.why
    position := dayArray.position
    total := dayArray.total
    time := J.s (formatToYYMMDDHHMM dayArray.time)
    non := dayArray.non
    bit := dayArray.bit
    eth := dayArray.eth
    dog := dayArray.doge
    sol := dayArray.sol
    xrp := dayArray.xrp
    usemodel := dayArray.usemodel }

/-- One produced per-user record of the `allData` mapping: identity fields
from `item[0]` plus eleven index-aligned parallel arrays. -/
structure UserSeries where
  userId : J
  username : J
  colors : J
  logo : J
  usemodel : List J
  why : List J
  position : List J
  total : List J
  time : List J
  non : List J
  bit : List J
  eth : List J
  dog : List J
  sol : List J
  xrp : List J

/-- The per-user arrow function of the `allData` mapping (lines 82-116):
builds `userData`, destructures `item[0]` (throwing a `TypeError` when the
user block is empty), and splits `userData` into the parallel field
arrays. -/
def mapUser (item : List DayRec) : Except String UserSeries :=
  let userData := item.map mapDay
  match item.head? with
  | none => .error "TypeError"
  | some first =>
    .ok
      { userId := first.userId
        username := first.username
        colors := first.colors
        logo := first.logo
        usemodel := userData.map fun d => d.usemodel
        why := userData.map fun d => d.why
        position := userData.map fun d => d.position
        total := userData.map fun d => d.total
        time := userData.map fun d => d.time
        non := userData.map fun d => d.non
        bit := userData.map fun d => d.bit
        eth := userData.map fun d => d.eth
        dog := userData.map fun d => d.dog
        sol := userData.map fun d => d.sol
        xrp := userData.map fun d => d.xrp }

/-- `sum_data.map(item => ...)` over the whole list; the first thrown
`TypeError` aborts the mapping (it is caught by the function's outer
`try`/`catch`). -/
def allDataMap : List (List DayRec) → Except String (List UserSeries)
  | [] => .ok []
  | item :: rest => do
    let r ← mapUser item
    let rs ← allDataMap rest
    pure (r :: rs)

/-- The value of the local `sum_data` before the `allData` mapping runs:
either a list of per-user day-record arrays (cached and/or merged data), or
the `defaultAllData` literal, whose elements are plain objects rather than
arrays. -/
inductive SumData where
  | rows (rows : List (List DayRec))
  | defaults

/-- `sum_data.map(...)`: mapping over day-record rows projects them;
mapping over the `defaultAllData` objects calls `item.map` on a non-array
and throws a `TypeError` (caught by the outer `try`/`catch`). -/
def mapSumData : SumData → Except String (List UserSeries)
  | .rows rs => allDataMap rs
  | .defaults => .error "TypeError"

/-- The `allData` component of the result: either the mapped per-user
series or the `defaultAllData` placeholder literal (single `default_user_01`
entry, returned as-is by the failure paths). -/
inductive AllDataResult where
  | mapped (rows : List UserSeries)
  | defaultData

/-- Value returned by `LoginfetchAllData`. -/
structure LoginResult where
  allData : AllDataResult
  check : Bool

/-- One `saveUpdate("min3", 1, record)` call, with the record written. -/
structure SaveCall where
  time : J
  data : List (List DayRec)

/-- The cached record `loadUpdate("min3", 1)` resolves to: `time` may be
`undefined`, `data` may be absent. -/
structure CacheRec where
  time : J
  data : Option (List (List DayRec))

/-- Parsed body of the `/api/wallet` response: the `"Nodata"` sentinel, a
`{ time, data: [...] }` payload of per-user day arrays, or any other shape
(on which `data_sum`'s `forEach` throws). -/
inductive WalletJson where
  | nodata
  | rows (time : J) (rows : List (List DayRec))
  | malformed

/-- Outcome of the `fetch` call: network rejection, or a response with its
`ok` flag and parsed JSON body (`none` models `res.json()` rejecting). -/
inductive FetchOutcome where
  | err
  | resp (ok : Bool) (json : Option WalletJson)

/-- Embedding of `LoginfetchAllData`
(src/frontend/src/services/POST/LoginfetchAllData.jsx, lines 30-123).
The IndexedDB read and the network call are abstracted into the `cached`
and `outcome` arguments; the returned pair is the function's result
together with the list of `saveUpdate` persistent-store writes it issued.
`latest_time` selection only feeds the request body, which is part of the
abstracted `outcome`. Returns follow the source: HTTP failure returns the
default directly with `check: false`; any thrown `TypeError` is caught and
also yields the default with `check: false`; on the `"Nodata"` sentinel the
cached rows are projected only when more than one user entry is cached,
otherwise `sum_data` is the `defaultAllData` literal (and the mapping over
it throws); only the non-sentinel merge path writes to the store, before
the mapping runs. -/
def LoginfetchAllData (cached : Option CacheRec) (outcome : FetchOutcome) :
    LoginResult × List SaveCall :=
  let ex_data := (cached.bind fun c => c.data).getD []
  match outcome with
  | .err => ({ allData := .defaultData, check := false }, [])
  | .resp ok json =>
    if ok = false then ({ allData := .defaultData, check := false }, [])
    else
      match json with
      | none => ({ allData := .defaultData, check := false }, [])
      | some .nodata =>
        let sum_data := if ex_data.length > 1 then SumData.rows ex_data else SumData.defaults
        match mapSumData sum_data with
        | .ok all => ({ allData := .mapped all, check := true }, [])
        | .error _ => ({ allData := .defaultData, check := false }, [])
      | some (.rows t rows) =>
        match data_sum ex_data rows with
        | .error _ => ({ allData := .defaultData, check := false }, [])
        | .ok sum =>
          match mapSumData (.rows sum) with
          | .ok all => ({ allData := .mapped all, check := true }, [⟨t, sum⟩])
          | .error _ => ({ allData := .defaultData, check := false }, [⟨t, sum⟩])
      | some .malformed => ({ allData := .defaultData, check := false }, [])

end PostSvc

/-- Ids of an incoming block never match the heads of a block list, so the
`find` scan inside `data_sum` returns no match (and throws on nothing,
since all scanned blocks are nonempty). -/
theorem findUserIdx_eq_none (uid : J) (ex : List (List DayRec))
    (hex : ∀ u ∈ ex, u ≠ [])
    (h : ∀ v ∈ ex, ∀ y, PostSvc.headUserId v = some y → jeqStrict y uid = false) :
    PostSvc.findUserIdx uid ex = .ok none := by
  induction ex with
  | nil => rfl
  | cons v rest ih =>
    have hv : v ≠ [] := hex v (by simp)
    obtain ⟨d0, tl, rfl⟩ := List.exists_cons_of_ne_nil hv
    have hid : jeqStrict d0.userId uid = false :=
      h (d0 :: tl) (by simp) d0.userId (by simp [PostSvc.headUserId])
    have ihr : PostSvc.findUserIdx uid rest = .ok none := by
      refine ih (fun u hu => hex u (by simp [hu])) ?_
      intro w hw y hy
      exact h w (by simp [hw]) y hy
    simp [PostSvc.findUserIdx, hid, ihr, Except.map]

/-- A nonempty incoming block whose id matches no block already present is
appended to the end of the state by one `forEach` iteration of `data_sum`. -/
theorem data_sumStep_append (ex : List (List DayRec)) (u : List DayRec)
    (hu : u ≠ []) (hex : ∀ v ∈ ex, v ≠ [])
    (h : ∀ v ∈ ex, ∀ y x, PostSvc.headUserId v = some y →
      PostSvc.headUserId u = some x → jeqStrict y x = false) :
    PostSvc.data_sumStep ex u = .ok (ex ++ [u]) := by
  obtain ⟨d0, tl, rfl⟩ := List.exists_cons_of_ne_nil hu
  have hfind : PostSvc.findUserIdx d0.userId ex = .ok none := by
    refine findUserIdx_eq_none _ _ hex ?_
    intro v hv y hy
    exact h v hv y d0.userId hy (by simp [PostSvc.headUserId])
  simp [PostSvc.data_sumStep, hfind, Except.map]

/-- Each step of `data_sum` can only keep or grow the number of user
entries: a matched block is rewritten in place, an unmatched one is
appended. -/
theorem data_sumStep_length_le (ex st : List (List DayRec)) (u : List DayRec)
    (h : PostSvc.data_sumStep ex u = .ok st) : ex.length ≤ st.length := by
  unfold PostSvc.data_sumStep at h
  cases hh : u.head? with
  | none => rw [hh] at h; exact absurd h (by simp)
  | some d0 =>
    rw [hh] at h
    dsimp only at h
    cases hf : PostSvc.findUserIdx d0.userId ex with
    | error e => rw [hf] at h; exact absurd h (by simp [Except.map])
    | ok found =>
      rw [hf] at h
      cases found with
      | some i =>
        simp only [Except.map, Except.ok.injEq] at h
        rw [← h]
        simp
      | none =>
        simp only [Except.map, Except.ok.injEq] at h
        rw [← h]
        simp

/-- A successful `data_sum` never shrinks the user-entry list: the merged
result has at least as many entries as `ex_data` had. -/
theorem data_sum_length_le (new_data : List (List DayRec)) :
    ∀ ex r, PostSvc.data_sum ex new_data = .ok r → ex.length ≤ r.length := by
  induction new_data with
  | nil =>
    intro ex r h
    simp only [PostSvc.data_sum, List.foldlM_nil] at h
    cases h
    exact le_refl _
  | cons u rest ih =>
    intro ex r h
    simp only [PostSvc.data_sum, List.foldlM_cons] at h
    cases hs : PostSvc.data_sumStep ex u with
    | error e =>
      rw [hs] at h
      have h2 : (Except.error e : Except String (List (List DayRec))) = .ok r := h
      exact Except.noConfusion h2
    | ok st =>
      rw [hs] at h
      have h2 : PostSvc.data_sum st rest = .ok r := h
      exact le_trans (data_sumStep_length_le ex st u hs) (ih st r h2)

/-- Merging blocks whose user ids neither occur in the existing list nor
repeat among themselves appends them all: `data_sum` returns
`ex_data ++ new_data` (which is also the mutated content of `ex_data`). -/
theorem data_sum_disjoint_core (new_data : List (List DayRec)) :
    ∀ ex : List (List DayRec),
      (∀ u ∈ ex, u ≠ []) →
      (∀ u ∈ new_data, u ≠ []) →
      (∀ v ∈ ex, ∀ u ∈ new_data, ∀ y x, PostSvc.headUserId v = some y →
        PostSvc.headUserId u = some x → jeqStrict y x = false) →
      (new_data.Pairwise fun u w => ∀ x z, PostSvc.headUserId u = some x →
        PostSvc.headUserId w = some z → jeqStrict x z = false) →
      PostSvc.data_sum ex new_data = .ok (ex ++ new_data) := by
  induction new_data with
  | nil =>
    intro ex _ _ _ _
    show (Except.ok ex : Except String (List (List DayRec))) = .ok (ex ++ [])
    simp
  | cons u rest ih =>
    intro ex hex hnew hdisj hdist
    have hu : u ≠ [] := hnew u (by simp)
    have hstep : PostSvc.data_sumStep ex u = .ok (ex ++ [u]) :=
      data_sumStep_append ex u hu hex
        (fun v hv y x hy hx => hdisj v hv u (by simp) y x hy hx)
    have hpair := List.pairwise_cons.mp hdist
    have hrec : PostSvc.data_sum (ex ++ [u]) rest = .ok ((ex ++ [u]) ++ rest) := by
      refine ih (ex ++ [u]) ?_ ?_ ?_ hpair.2
      · intro w hw
        rcases List.mem_append.mp hw with h1 | h1
        · exact hex w h1
        · simp at h1
          rw [h1]
          exact hu
      · intro w hw
        exact hnew w (by simp [hw])
      · intro v hv w hw y x hy hx
        rcases List.mem_append.mp hv with h1 | h1
        · exact hdisj v h1 w (by simp [hw]) y x hy hx
        · simp at h1
          subst h1
          exact hpair.1 w hw y x hy hx
    show PostSvc.data_sumStep ex u >>= (fun st => List.foldlM PostSvc.data_sumStep st rest) =
      .ok (ex ++ u :: rest)
    rw [hstep]
    show PostSvc.data_sum (ex ++ [u]) rest = .ok (ex ++ u :: rest)
    rw [hrec]
    simp

/-- Sample day-records used as concrete inputs in the theorems below. -/
def dayA1 : DayRec := { userId := J.s "A", total := J.n 1, time := J.n 0 }

/-- Second observation for user `"A"`. -/
def dayA2 : DayRec := { userId := J.s "A", total := J.n 2, time := J.n 86400000 }

/-- Third observation for user `"A"`. -/
def dayA3 : DayRec := { userId := J.s "A", total := J.n 3, time := J.n 172800000 }

/-- An observation for user `"B"`. -/
def dayB1 : DayRec := { userId := J.s "B", total := J.n 4, time := J.n 0 }

/-- Second observation for user `"B"`. -/
def dayB2 : DayRec := { userId := J.s "B", total := J.n 5, time := J.n 86400000 }

/-- C2, counterexample. The claim says `data_sum` returns a new list and
leaves the `existing` argument unchanged. In fact the source pushes into
the existing per-user arrays and returns `ex_data` itself: after
`data_sum([[dayA1]], [[dayA2]])` the content of the `ex_data` array is
`[[dayA1, dayA2]]`, not the pre-call `[[dayA1]]`, and the returned list is
exactly that mutated array. -/
theorem claim2_counterexample :
    PostSvc.ex_dataAfter [[dayA1]] [[dayA2]] = .ok [[dayA1, dayA2]] ∧
    PostSvc.ex_dataAfter [[dayA1]] [[dayA2]] ≠ .ok [[dayA1]] ∧
    PostSvc.data_sum [[dayA1]] [[dayA2]] = PostSvc.ex_dataAfter [[dayA1]] [[dayA2]] := by
  refine ⟨rfl, ?_, rfl⟩
  intro h
  rw [show PostSvc.ex_dataAfter [[dayA1]] [[dayA2]] = .ok [[dayA1, dayA2]] from rfl] at h
  simp at h

/-- C2, amended. `data_sum` merges in place: the returned list is the
post-call content of the mutated `ex_data` argument (the same array), and
on success the merged list retains at least the existing user entries
(entries are only extended or appended, never dropped), so the pre-call
snapshot of `ex_data` is not preserved. -/
theorem claim2_inplace_merge (ex_data new_data : List (List DayRec)) :
    PostSvc.data_sum ex_data new_data = PostSvc.ex_dataAfter ex_data new_data ∧
    ∀ r, PostSvc.data_sum ex_data new_data = .ok r → ex_data.length ≤ r.length := by
  refine ⟨rfl, ?_⟩
  intro r h
  exact data_sum_length_le new_data ex_data r h

/-- Witness for C2 amended: concrete one-user merge, evaluated. -/
theorem claim2_witness :
    PostSvc.data_sum [[dayA1]] [[dayA2]] = PostSvc.ex_dataAfter [[dayA1]] [[dayA2]] ∧
    ([[dayA1]] : List (List DayRec)).length ≤ ([[dayA1, dayA2]] : List (List DayRec)).length := by
  exact ⟨(claim2_inplace_merge [[dayA1]] [[dayA2]]).1,
    (claim2_inplace_merge [[dayA1]] [[dayA2]]).2 [[dayA1, dayA2]] rfl⟩

/-- C3, counterexample. The claim promises `existing.length + incoming.length`
entries whenever the incoming ids are disjoint from the existing ids. With
an empty existing list (disjointness holds vacuously) and two incoming
blocks that share user id `"B"`, the second block is appended into the
entry the first block just created: the result has 1 entry, not 0 + 2. -/
theorem claim3_counterexample :
    PostSvc.data_sum ([] : List (List DayRec)) [[dayB1], [dayB2]] = .ok [[dayB1, dayB2]] ∧
    ([[dayB1, dayB2]] : List (List DayRec)).length ≠
      ([] : List (List DayRec)).length + ([[dayB1], [dayB2]] : List (List DayRec)).length := by
  exact ⟨rfl, by decide⟩

/-- C3, amended. If additionally the incoming blocks are nonempty, the
scanned existing blocks are nonempty, and the incoming user ids are pairwise
distinct among themselves (besides being disjoint from the existing ids),
then the merge yields `ex_data ++ new_data`: it has
`ex_data.length + new_data.length` user entries and every pre-existing user
entry is unchanged in the result. -/
theorem claim3_disjoint_merge (ex_data new_data : List (List DayRec))
    (hex : ∀ u ∈ ex_data, u ≠ [])
    (hnew : ∀ u ∈ new_data, u ≠ [])
    (hdisj : ∀ v ∈ ex_data, ∀ u ∈ new_data, ∀ y x, PostSvc.headUserId v = some y →
      PostSvc.headUserId u = some x → jeqStrict y x = false)
    (hdist : new_data.Pairwise fun u w => ∀ x z, PostSvc.headUserId u = some x →
      PostSvc.headUserId w = some z → jeqStrict x z = false) :
    PostSvc.data_sum ex_data new_data = .ok (ex_data ++ new_data) ∧
    (ex_data ++ new_data).length = ex_data.length + new_data.length ∧
    ∀ i, i < ex_data.length → (ex_data ++ new_data).getD i [] = ex_data.getD i [] := by
  refine ⟨data_sum_disjoint_core new_data ex_data hex hnew hdisj hdist, by simp, ?_⟩
  intro i hi
  rw [List.getD_eq_getElem?_getD, List.getD_eq_getElem?_getD,
    List.getElem?_append_left hi]

/-- All eleven parallel arrays of a produced per-user record have one
common length. -/
def alignedLengths (s : PostSvc.UserSeries) : Prop :=
  s.usemodel.length = s.why.length ∧
  s.why.length = s.position.length ∧
  s.position.length = s.total.length ∧
  s.total.length = s.time.length ∧
  s.time.length = s.non.length ∧
  s.non.length = s.bit.length ∧
  s.bit.length = s.eth.length ∧
  s.eth.length = s.dog.length ∧
  s.dog.length = s.sol.length ∧
  s.sol.length = s.xrp.length

/-- Every record the per-user mapping produces is aligned: all eleven
arrays are maps over the same `userData` list. -/
theorem mapUser_aligned (item : List DayRec) (s : PostSvc.UserSeries)
    (h : PostSvc.mapUser item = .ok s) : alignedLengths s := by
  unfold PostSvc.mapUser at h
  cases hh : item.head? with
  | none =>
    rw [hh] at h
    have h2 : (Except.error "TypeError" : Except String PostSvc.UserSeries) = .ok s := h
    exact Except.noConfusion h2
  | some first =>
    rw [hh] at h
    dsimp only at h
    injection h with h2
    subst h2
    unfold alignedLengths
    simp

/-- Each record of a successful `allData` mapping comes from one of the
mapped per-user blocks. -/
theorem allDataMap_mem (l : List (List DayRec)) :
    ∀ proj, PostSvc.allDataMap l = .ok proj →
      ∀ s ∈ proj, ∃ item, item ∈ l ∧ PostSvc.mapUser item = .ok s := by
  induction l with
  | nil =>
    intro proj h s hs
    have h2 : (Except.ok [] : Except String (List PostSvc.UserSeries)) = .ok proj := h
    injection h2 with h3
    subst h3
    simp at hs
  | cons item rest ih =>
    intro proj h s hs
    rw [show PostSvc.allDataMap (item :: rest) = do
        let r ← PostSvc.mapUser item
        let rs ← PostSvc.allDataMap rest
        pure (r :: rs) from rfl] at h
    cases hm : PostSvc.mapUser item with
    | error e =>
      rw [hm] at h
      have h2 : (Except.error e : Except String (List PostSvc.UserSeries)) = .ok proj := h
      exact Except.noConfusion h2
    | ok r =>
      rw [hm] at h
      cases hrest : PostSvc.allDataMap rest with
      | error e =>
        rw [hrest] at h
        have h2 : (Except.error e : Except String (List PostSvc.UserSeries)) = .ok proj := h
        exact Except.noConfusion h2
      | ok rs =>
        rw [hrest] at h
        have h2 : (Except.ok (r :: rs) : Except String (List PostSvc.UserSeries)) = .ok proj := h
        injection h2 with h3
        subst h3
        rcases List.mem_cons.mp hs with h4 | h4
        · exact ⟨item, by simp, h4 ▸ hm⟩
        · obtain ⟨it, hit, heq⟩ := ih rs hrest s h4
          exact ⟨it, by simp [hit], heq⟩

/-- Witness for C3 amended: one existing user `"A"`, one incoming user
`"B"`, all hypotheses discharged on the concrete data. -/
theorem claim3_witness :
    PostSvc.data_sum [[dayA1]] [[dayB1]] = .ok [[dayA1], [dayB1]] ∧
    ([[dayA1], [dayB1]] : List (List DayRec)).length = 1 + 1 ∧
    ∀ i, i < ([[dayA1]] : List (List DayRec)).length →
      ([[dayA1], [dayB1]] : List (List DayRec)).getD i [] =
        ([[dayA1]] : List (List DayRec)).getD i [] := by
  have h := claim3_disjoint_merge [[dayA1]] [[dayB1]]
    (by intro u hu; simp at hu; rw [hu]; exact fun hc => List.noConfusion hc)
    (by intro u hu; simp at hu; rw [hu]; exact fun hc => List.noConfusion hc)
    (by
      intro v hv u hu y x hy hx
      simp at hv hu
      subst hv
      subst hu
      simp [PostSvc.headUserId] at hy hx
      rw [← hy, ← hx]
      rfl)
    (by simp)
  exact ⟨h.1, h.2.1, h.2.2⟩


/-- Projection (3 points) of the cached user `"A"` series
`[dayA1, dayA2, dayA3]` through the `allData` mapping. -/
def seriesA3 : PostSvc.UserSeries :=
  { userId := J.s "A", username := J.undef, colors := J.undef, logo := J.undef
    usemodel := [J.undef, J.undef, J.undef]
    why := [J.undef, J.undef, J.undef]
    position := [J.undef, J.undef, J.undef]
    total := [J.n 1, J.n 2, J.n 3]
    time := [J.s "197001010000", J.s "197001020000", J.s "197001030000"]
    non := [J.undef, J.undef, J.undef]
    bit := [J.undef, J.undef, J.undef]
    eth := [J.undef, J.undef, J.undef]
    dog := [J.undef, J.undef, J.undef]
    sol := [J.undef, J.undef, J.undef]
    xrp := [J.undef, J.undef, J.undef] }

/-- Projection (1 point) of `[dayA1]`. -/
def seriesA1 : PostSvc.UserSeries :=
  { userId := J.s "A", username := J.undef, colors := J.undef, logo := J.undef
    usemodel := [J.undef], why := [J.undef], position := [J.undef]
    total := [J.n 1], time := [J.s "197001010000"], non := [J.undef]
    bit := [J.undef], eth := [J.undef], dog := [J.undef]
    sol := [J.undef], xrp := [J.undef] }

/-- Projection (1 point) of `[dayB1]`. -/
def seriesB1 : PostSvc.UserSeries :=
  { userId := J.s "B", username := J.undef, colors := J.undef, logo := J.undef
    usemodel := [J.undef], why := [J.undef], position := [J.undef]
    total := [J.n 4], time := [J.s "197001010000"], non := [J.undef]
    bit := [J.undef], eth := [J.undef], dog := [J.undef]
    sol := [J.undef], xrp := [J.undef] }

/-- Projection (2 points) of `[dayA1, dayA2]`. -/
def seriesA12 : PostSvc.UserSeries :=
  { userId := J.s "A", username := J.undef, colors := J.undef, logo := J.undef
    usemodel := [J.undef, J.undef], why := [J.undef, J.undef]
    position := [J.undef, J.undef], total := [J.n 1, J.n 2]
    time := [J.s "197001010000", J.s "197001020000"]
    non := [J.undef, J.undef], bit := [J.undef, J.undef]
    eth := [J.undef, J.undef], dog := [J.undef, J.undef]
    sol := [J.undef, J.undef], xrp := [J.undef, J.undef] }

/-- C1, counterexample. The claim says that on the `"Nodata"` sentinel a
cache holding a single user with 3 points still projects those 3 points.
In the source, `sum_data = ex_data.length > 1 ? ex_data : defaultAllData`
discards a single-entry cache: the `defaultAllData` objects then fail the
`item.map` projection, the `catch` returns the default placeholder with
`check: false`, and the cached 3 points (whose projection would have been
`[seriesA3]`) never reach the output. No store write happens either way. -/
theorem claim1_counterexample :
    PostSvc.LoginfetchAllData
        (some ⟨J.s "202511010000", some [[dayA1, dayA2, dayA3]]⟩)
        (.resp true (some .nodata)) =
      ({ allData := .defaultData, check := false }, []) ∧
    PostSvc.allDataMap [[dayA1, dayA2, dayA3]] = .ok [seriesA3] ∧
    PostSvc.AllDataResult.defaultData ≠ .mapped [seriesA3] := by
  refine ⟨rfl, rfl, ?_⟩
  intro h
  exact PostSvc.AllDataResult.noConfusion h

/-- C1, amended. On the `"Nodata"` sentinel no `saveUpdate` write ever
happens, and the projection reflects the cached per-user series unchanged
exactly when the cache holds more than one user entry (and its projection
succeeds); a cache with at most one user entry is replaced by the
`defaultAllData` placeholder, whose failed projection yields the default
with `check: false` — still without a store write. -/
theorem claim1_nodata_shortcircuit (t : J) (ex : List (List DayRec))
    (proj : List PostSvc.UserSeries) :
    (ex.length > 1 → PostSvc.allDataMap ex = .ok proj →
      PostSvc.LoginfetchAllData (some ⟨t, some ex⟩) (.resp true (some .nodata)) =
        ({ allData := .mapped proj, check := true }, [])) ∧
    (ex.length ≤ 1 →
      PostSvc.LoginfetchAllData (some ⟨t, some ex⟩) (.resp true (some .nodata)) =
        ({ allData := .defaultData, check := false }, [])) := by
  have hstep : PostSvc.LoginfetchAllData (some ⟨t, some ex⟩) (.resp true (some .nodata)) =
      (match PostSvc.mapSumData
          (if ex.length > 1 then PostSvc.SumData.rows ex else PostSvc.SumData.defaults) with
        | .ok all =>
          (({ allData := PostSvc.AllDataResult.mapped all, check := true } : PostSvc.LoginResult),
            ([] : List PostSvc.SaveCall))
        | .error _ =>
          (({ allData := PostSvc.AllDataResult.defaultData, check := false } : PostSvc.LoginResult),
            ([] : List PostSvc.SaveCall))) := rfl
  constructor
  · intro hlen hproj
    rw [hstep, if_pos hlen]
    rw [show PostSvc.mapSumData (PostSvc.SumData.rows ex) = .ok proj from hproj]
  · intro hlen
    have hnot : ¬ ex.length > 1 := by omega
    rw [hstep, if_neg hnot]
    rfl

/-- Witness for C1 amended: a two-user cache on the `"Nodata"` path keeps
both projected users and writes nothing. -/
theorem claim1_witness :
    PostSvc.LoginfetchAllData
        (some ⟨J.s "202511010000", some [[dayA1], [dayB1]]⟩)
        (.resp true (some .nodata)) =
      ({ allData := .mapped [seriesA1, seriesB1], check := true }, []) :=
  (claim1_nodata_shortcircuit (J.s "202511010000") [[dayA1], [dayB1]]
    [seriesA1, seriesB1]).1 (by decide) rfl

/-- C4, confirmed. Every per-user record produced by the `allData` mapping
after a `data_sum` merge has its eleven parallel field arrays (`usemodel`,
`why`, `position`, `total`, `time`, `non`, `bit`, `eth`, `dog`, `sol`,
`xrp`) of equal length: each is a map over the same `userData` list, so
index `i` across the arrays describes the same observation. -/
theorem claim4_alignment (ex_data new_data sum : List (List DayRec))
    (proj : List PostSvc.UserSeries)
    (_hmerge : PostSvc.data_sum ex_data new_data = .ok sum)
    (hproj : PostSvc.allDataMap sum = .ok proj) :
    ∀ s ∈ proj, alignedLengths s := by
  intro s hs
  obtain ⟨item, _, heq⟩ := allDataMap_mem sum proj hproj s hs
  exact mapUser_aligned item s heq

/-- Witness for C4: the concrete merge of `[[dayA1]]` with `[[dayA2]]`
projects to `[seriesA12]`, whose arrays are aligned. -/
theorem claim4_witness : alignedLengths seriesA12 :=
  claim4_alignment [[dayA1]] [[dayA2]] [[dayA1, dayA2]] [seriesA12] rfl rfl
    seriesA12 (by simp)

namespace HomeCache

/-- The cached record inspected by the mount effect of `Home`
(src/frontend/src/pages/home.jsx, first variant, lines 82-115): a `time`
cursor (possibly `undefined`) and the per-user day-record arrays. -/
structure HomeCacheRec where
  time : J
  data : List (List DayRec)

/-- Epoch milliseconds of `new Date(x)`, clipped to an integer; `none` is
an invalid date (whose time value is `NaN`). Only numeric inputs are
modelled: `undefined` and other non-numeric values map to an invalid date
(string parsing of `new Date` is outside this embedding; both sides of the
staleness equivalence below go through this same conversion). -/
def jsDateMs : J → Option Int
  | .n q => some (Int.tdiv q.num (q.den : Int))
  | _ => none

/-- One adjacent-pair test of the date-sequence check:
`(curr - prev) / (1000 * 60 * 60 * 24) === 1` on `Date` values. JS doubles
represent these magnitudes exactly and the quotient of doubles equals 1
exactly when the dividend equals the divisor, so the test is embedded as
`curr - prev = 86400000`; invalid dates give `NaN`, which fails the test.
`seqPairOK_iff_div` below relates this to the rational-division form. -/
def seqPairOK (prevJ currJ : J) : Bool :=
  match jsDateMs prevJ, jsDateMs currJ with
  | some p, some c => decide (c - p = 86400000)
  | _, _ => false

/-- The `allDates.every(...)` loop from index 1 on: each date must be one
day after its predecessor. -/
def seqGo (prev : J) : List J → Bool
  | [] => true
  | c :: rest => seqPairOK prev c && seqGo c rest

/-- The `isSequential` constant of the mount effect (lines 93-100):
index 0 always passes, every later index is compared with its
predecessor. -/
def isSequential (allDates : List J) : Bool :=
  match allDates with
  | [] => true
  | d0 :: rest => seqGo d0 rest

/-- `cachedData.data.map(dayArr => dayArr[0]?.time)` (line 92): the first
observation time of each per-user entry, `undefined` for an empty entry. -/
def allDatesOf (data : List (List DayRec)) : List J :=
  data.map fun dayArr => ((dayArr.head?.map fun d => d.time).getD J.undef)

/-- Decision of the Staleness Detector (the mount effect, lines 82-115),
as the final `isCacheExisit` outcome: `false` when no record exists, when
`typeof cachedData.time === "undefined"`, when the date sequence check
fails, or when the `versionCheck` result is truthy (a truthy result
invalidates the cache in the source, so "the version check passes" means a
falsy `isVersion`); otherwise the cache is reused (`true`). -/
def cacheValid (cached : Option HomeCacheRec) (isVersion : J) : Bool :=
  match cached with
  | none => false
  | some c =>
    match c.time with
    | .undef => false
    | _ => isSequential (allDatesOf c.data) && !(truthy isVersion)

end HomeCache

/-- Spec-side formulation of the date-sequence condition, in the claim's
own terms: every adjacent pair of dates, starting at index 1, consists of
two valid dates with `(currDate - prevDate) / 86_400_000 === 1`. -/
def datesConsecutiveSpec (dates : List J) : Prop :=
  ∀ i, ∀ h : i + 1 < dates.length, ∃ p c : Int,
    HomeCache.jsDateMs (dates.get ⟨i, by omega⟩) = some p ∧
    HomeCache.jsDateMs (dates.get ⟨i + 1, h⟩) = some c ∧
    ((c : ℚ) - (p : ℚ)) / 86400000 = 1

/-- The embedded integer pair test agrees with the rational-division form
used by the source and the claim. -/
theorem seqPairOK_iff_div (p c : Int) :
    (c - p = 86400000) ↔ ((c : ℚ) - (p : ℚ)) / 86400000 = 1 := by
  rw [div_eq_one_iff_eq (by norm_num)]
  constructor
  · intro h
    have h2 : ((c - p : Int) : ℚ) = ((86400000 : Int) : ℚ) := by exact_mod_cast h
    push_cast at h2
    linarith
  · intro h
    have h2 : ((c - p : Int) : ℚ) = ((86400000 : Int) : ℚ) := by push_cast; linarith
    exact_mod_cast h2

/-- The pair test holds exactly when both dates are valid and one calendar
day (in the division form) apart. -/
theorem seqPairOK_iff (a b : J) :
    HomeCache.seqPairOK a b = true ↔ ∃ p c : Int,
      HomeCache.jsDateMs a = some p ∧ HomeCache.jsDateMs b = some c ∧
      ((c : ℚ) - (p : ℚ)) / 86400000 = 1 := by
  unfold HomeCache.seqPairOK
  cases ha : HomeCache.jsDateMs a with
  | none =>
    simp only [Bool.false_eq_true, false_iff]
    rintro ⟨p, c, hp, _, _⟩
    exact Option.noConfusion hp
  | some p =>
    cases hb : HomeCache.jsDateMs b with
    | none =>
      simp only [Bool.false_eq_true, false_iff]
      rintro ⟨p', c', _, hc, _⟩
      exact Option.noConfusion hc
    | some c =>
      simp only [decide_eq_true_eq]
      constructor
      · intro h
        exact ⟨p, c, rfl, rfl, (seqPairOK_iff_div p c).mp h⟩
      · rintro ⟨p', c', hp', hc', hdiv⟩
        injection hp' with hp2
        injection hc' with hc2
        subst hp2
        subst hc2
        exact (seqPairOK_iff_div p c).mpr hdiv

/-- The `every` loop is the chain of adjacent pair tests. -/
theorem isSequential_iff_chain (dates : List J) :
    HomeCache.isSequential dates = true ↔
      List.Chain' (fun a b => HomeCache.seqPairOK a b = true) dates := by
  cases dates with
  | nil => simp [HomeCache.isSequential]
  | cons d0 rest =>
    show HomeCache.seqGo d0 rest = true ↔ List.Chain' _ (d0 :: rest)
    rw [List.chain'_cons']
    induction rest generalizing d0 with
    | nil => simp [HomeCache.seqGo]
    | cons c r ih =>
      rw [show HomeCache.seqGo d0 (c :: r) =
        (HomeCache.seqPairOK d0 c && HomeCache.seqGo c r) from rfl]
      rw [Bool.and_eq_true]
      rw [ih c]
      constructor
      · rintro ⟨h1, h2, h3⟩
        exact ⟨fun y hy => by rw [List.head?_cons] at hy; injection hy with hy2; rw [← hy2]; exact h1,
          List.chain'_cons'.mpr ⟨h2, h3⟩⟩
      · rintro ⟨h1, h2⟩
        have h3 := List.chain'_cons'.mp h2
        exact ⟨h1 c rfl, h3.1, h3.2⟩

/-- Observation for user `"A"` three days after `dayA1` (a one-day gap
after `dayA2`). -/
def dayGap : DayRec := { userId := J.s "A", total := J.n 9, time := J.n 259200000 }

/-- C5, confirmed. For a cached record with a defined cursor, when the
version check passes (its result is falsy - in the source a truthy
`versionCheck` result invalidates the cache), the Staleness Detector
accepts the cache exactly when every adjacent pair of per-entry dates,
starting at index 1, consists of valid dates with
`(currDate - prevDate) / 86_400_000 === 1`. Concretely, dates
`[D, D+1, D+3]` are rejected and `[D, D+1, D+2]` are accepted
(`D = 1970-01-01T00:00Z`). -/
theorem claim5_staleness (rec : HomeCache.HomeCacheRec) (iv : J)
    (htime : rec.time ≠ J.undef) (hver : truthy iv = false) :
    (HomeCache.cacheValid (some rec) iv = true ↔
      datesConsecutiveSpec (HomeCache.allDatesOf rec.data)) ∧
    HomeCache.cacheValid
      (some ⟨J.s "202511010000", [[dayA1], [dayA2], [dayGap]]⟩) (J.b false) = false ∧
    HomeCache.cacheValid
      (some ⟨J.s "202511010000", [[dayA1], [dayA2], [dayA3]]⟩) (J.b false) = true := by
  refine ⟨?_, rfl, rfl⟩
  obtain ⟨tm, data⟩ := rec
  have hmain : (HomeCache.isSequential (HomeCache.allDatesOf data) && !(truthy iv)) = true ↔
      datesConsecutiveSpec (HomeCache.allDatesOf data) := by
    rw [hver]
    rw [show (!false) = true from rfl, Bool.and_true]
    rw [isSequential_iff_chain, List.chain'_iff_get]
    unfold datesConsecutiveSpec
    constructor
    · intro hch i h
      exact (seqPairOK_iff _ _).mp (hch i (by omega))
    · intro hsp i h
      exact (seqPairOK_iff _ _).mpr (hsp i (by omega))
  cases tm with
  | undef => exact absurd rfl htime
  | null => exact hmain
  | nan => exact hmain
  | b v => exact hmain
  | n v => exact hmain
  | s v => exact hmain
  | arr es => exact hmain
  | obj fs => exact hmain

/-- Witness for C5: the `[D, D+1, D+2]` record with a defined cursor and a
passing version check is accepted. -/
theorem claim5_witness :
    HomeCache.cacheValid
      (some ⟨J.s "202511010000", [[dayA1], [dayA2], [dayA3]]⟩) (J.b false) = true :=
  (claim5_staleness ⟨J.s "202511010000", [[dayA1], [dayA2], [dayA3]]⟩ (J.b false)
    (fun h => J.noConfusion h) rfl).2.2

namespace HttpGet

/-- One complete line produced by the chunk loop of `fetchAllData`
(src/frontend/src/components/Http_Get.jsx, lines 17-63): the partial-line
buffer splits the decoded stream on `"\n"`, so a line is either empty
(skipped by `if (!line) continue`), a line `JSON.parse` rejects (logged,
skipped), or a parsed JSON value. -/
inductive LineV where
  | empty
  | malformed
  | parsed (j : J)

/-- The `payload` selection (lines 34-41): a bare array passes through,
an envelope passes its `data` only when `parsed?.type === "wallet"` and
`Array.isArray(parsed.data)`; everything else is skipped (`continue`). -/
def extractPayload (parsed : J) : Option (List J) :=
  match parsed with
  | .arr xs => some xs
  | _ =>
    if jeqStrict (jGet parsed "type") (J.s "wallet") then
      match jGet parsed "data" with
      | .arr ys => some ys
      | _ => none
    else none

/-- `payload[0]?.time ?? "__unknown__"` (line 49). -/
def timeKeyOf (payload : List J) : J :=
  match payload.head? with
  | none => J.s "__unknown__"
  | some h =>
    match h with
    | .null => J.s "__unknown__"
    | .undef => J.s "__unknown__"
    | _ =>
      match jGet h "time" with
      | .undef => J.s "__unknown__"
      | .null => J.s "__unknown__"
      | v => v

/-- JS `ToNumber` coercion for the sort comparator's subtraction, limited
to the value shapes this stream carries; `none` is `NaN`. Strings are
coerced only when they are plain digit sequences (or empty, giving 0);
other coercions (signs, exponents, object `toPrimitive`) do not occur in
this data and are mapped to `NaN`. -/
def toNum : J → Option ℚ
  | .n q => some q
  | .b true => some 1
  | .b false => some 0
  | .null => some 0
  | .s st =>
    if st.data = [] then some 0
    else if st.data.all fun c => c.isDigit then
      some ((st.data.foldl (fun a c => a * 10 + (c.toNat - 48)) 0 : Nat) : ℚ)
    else none
  | _ => none

/-- `a.userId ?? 0` inside the comparator; property access on a `null` or
`undefined` element throws. -/
def userIdKey (a : J) : Except String J := do
  let u ← jGetE a "userId"
  pure (match u with | .null => J.n 0 | .undef => J.n 0 | v => v)

/-- The comparator `(a.userId ?? 0) - (b.userId ?? 0)`; when the
subtraction yields `NaN`, `Array.prototype.sort` treats the comparator
result as `+0`. -/
def cmpJS (a b : J) : Except String ℚ := do
  let ka ← userIdKey a
  let kb ← userIdKey b
  pure (match toNum ka, toNum kb with
    | some x, some y => x - y
    | _, _ => 0)

/-- Stable insertion of a later element: it goes before the first element
it compares strictly below, after every element it ties with. -/
def insertSorted (x : J) : List J → Except String (List J)
  | [] => .ok [x]
  | y :: ys => do
    let c ← cmpJS x y
    if c < 0 then pure (x :: y :: ys)
    else do
      let r ← insertSorted x ys
      pure (y :: r)

/-- The `normalizedGroup` sort (lines 53-55): a stable sort by
`(a.userId ?? 0) - (b.userId ?? 0)`. The preceding
`payload.map(item => ({ ...item }))` shallow copy is the identity in this
value embedding. Modelled as a stable insertion sort, which agrees with
the engine's stable sort for the consistent comparators this data
produces. -/
def sortByUserId (l : List J) : Except String (List J) :=
  l.foldlM (fun acc x => insertSorted x acc) []

/-- Insertion-ordered upsert, the net effect of the
`if (!groupedByTime.has(timeKey)) set(timeKey, [])` + `set(timeKey, group)`
pair on the `Map` (lines 50-57); `Map` keys compare by SameValueZero. -/
def mapSet (m : List (J × List J)) (k : J) (v : List J) : List (J × List J) :=
  if m.any fun e => jeqSVZ e.1 k then
    m.map fun e => if jeqSVZ e.1 k then (e.1, v) else e
  else m ++ [(k, v)]

/-- Accumulator of the line loop: `walletEntries` and the insertion-ordered
content of the `groupedByTime` map. -/
structure GetSt where
  walletEntries : List J
  groupedByTime : List (J × List J)

/-- Processing of one line (lines 29-62): empty and unparseable lines leave
the state unchanged; a parsed value contributes its payload (when accepted
and nonempty) to `walletEntries` and upserts its normalized group. An
exception thrown while sorting (null/undefined elements) propagates to the
outer `catch`. -/
def processLine (st : GetSt) : LineV → Except String GetSt
  | .empty => .ok st
  | .malformed => .ok st
  | .parsed p =>
    match extractPayload p with
    | none => .ok st
    | some payload =>
      if payload.length = 0 then .ok st
      else do
        let sorted ← sortByUserId payload
        pure { walletEntries := st.walletEntries ++ payload,
               groupedByTime := mapSet st.groupedByTime (timeKeyOf payload) sorted }

/-- The whole line loop over the streamed body. -/
def runLines (lines : List LineV) : Except String GetSt :=
  lines.foldlM processLine ⟨[], []⟩

/-- `walletEntries[walletEntries.length - 1].time ?? null`, with the ternary
guard for an empty list; reading `.time` of a `null`/`undefined` last entry
throws into the outer `catch`. -/
def lastTimeOf (entries : List J) : Except String J :=
  match entries.getLast? with
  | none => .ok J.null
  | some e => do
    let t ← jGetE e "time"
    pure (match t with | .undef => J.null | .null => J.null | v => v)

/-- Result of `fetchAllData`: the grouped wallet arrays and the last seen
time. -/
structure GetResult where
  allData : List (List J)
  lastTime : J

/-- Embedding of `fetchAllData`
(src/frontend/src/components/Http_Get.jsx): the network read and chunk
buffering are abstracted into the delivered `lines`; `groupedWallets`
filters out empty groups; any thrown error is caught and yields
`{ allData: [], lastTime: null }`. -/
def fetchAllData (lines : List LineV) : GetResult :=
  match (do
      let st ← runLines lines
      let lt ← lastTimeOf st.walletEntries
      pure (⟨(st.groupedByTime.map fun e => e.2).filter fun g => g.length ≠ 0, lt⟩ : GetResult)
    : Except String GetResult) with
  | .ok r => r
  | .error _ => ⟨[], J.null⟩

end HttpGet

namespace SocketNs

/-- One mapped record of the WebSocket handler
(src/frontend/src/components/Socket.jsx, lines 34-48). The output shape has
no `btc`/`doge` keys. -/
structure SockRec where
  userId : J
  username : J
  colors : J
  logo : J
  time : J
  why : J
  position : J
  non : J
  bit : J
  eth : J
  dog : J
  sol : J
  xrp : J
  total : J

/-- The per-item arrow function `(item = {}) => ({...})`: an `undefined`
item is replaced by `{}` (all reads give `undefined`), reading properties
of a `null` item throws, and `bit` is `item.btc || item.bit` while `dog`
reads `item.dog`. -/
def mapItem (item : J) : Except String SockRec :=
  match item with
  | .null => .error "TypeError"
  | it =>
    .ok
      { userId := jGet it "userId"
        username := jGet it "username"
        colors := jGet it "colors"
        logo := jGet it "logo"
        time := jGet it "time"
        why := jGet it "why"
        position := jGet it "position"
        non := jGet it "non"
        bit := jsOr (jGet it "btc") (jGet it "bit")
        eth := jGet it "eth"
        dog := jGet it "dog"
        sol := jGet it "sol"
        xrp := jGet it "xrp"
        total := jGet it "total" }

/-- `payload.flat()`: one level of flattening. -/
def flatOne (payload : List J) : List J :=
  payload.flatMap fun x => match x with | .arr es => es | v => [v]

/-- `flatParsed.map(...)`; the first thrown error aborts the mapping into
the surrounding `catch`. -/
def mapAll : List J → Except String (List SockRec)
  | [] => .ok []
  | x :: xs => do
    let r ← mapItem x
    let rs ← mapAll xs
    pure (r :: rs)

/-- Embedding of the message effect of `useSocketData`
(src/frontend/src/components/Socket.jsx, lines 17-55). `msg` is the parse
outcome of `lastMessage.data` (`none` when `JSON.parse` throws); non-array
payloads are accepted only from a `{ type: "wallet", data: [...] }`
envelope, other message types leave `datalist` untouched; nested payloads
are flattened one level when the first element is an array; a mapping
error is caught, leaving `datalist` untouched. -/
def handleMessage (msg : Option J) (datalist : List SockRec) : List SockRec :=
  match msg with
  | none => datalist
  | some parsed =>
    match
      (match parsed with
        | .arr xs => some xs
        | _ =>
          if jeqStrict (jGet parsed "type") (J.s "wallet") then
            match jGet parsed "data" with
            | .arr ys => some ys
            | _ => none
          else none) with
    | none => datalist
    | some payload =>
      let flatParsed :=
        match payload.head? with
        | some (.arr _) => flatOne payload
        | _ => payload
      match mapAll flatParsed with
      | .ok mapped => mapped
      | .error _ => datalist

end SocketNs

/-- A line whose payload is skipped leaves the whole single-line run at the
empty result. -/
theorem fetchAllData_single_skip (l : HttpGet.LineV)
    (h : HttpGet.processLine ⟨[], []⟩ l = .ok ⟨[], []⟩) :
    HttpGet.fetchAllData [l] = ⟨[], J.null⟩ := by
  have hr : HttpGet.runLines [l] = .ok ⟨[], []⟩ := by
    unfold HttpGet.runLines
    rw [List.foldlM_cons, h]
    rfl
  unfold HttpGet.fetchAllData
  rw [hr]
  rfl

/-- C6, confirmed. An envelope object whose `type` is not `"wallet"` is
silently discarded by both normalizers: the streaming `fetchAllData`
yields the empty result `{ allData: [], lastTime: null }` for that payload
and the WebSocket handler leaves `datalist` unchanged; no exception is
thrown (both embeddings return normally). -/
theorem claim6_envelope_filter (fs : List (String × J)) (prev : List SocketNs.SockRec)
    (htype : jeqStrict (jGet (J.obj fs) "type") (J.s "wallet") = false) :
    HttpGet.fetchAllData [.parsed (J.obj fs)] = ⟨[], J.null⟩ ∧
    SocketNs.handleMessage (some (J.obj fs)) prev = prev := by
  constructor
  · refine fetchAllData_single_skip _ ?_
    have hep : HttpGet.extractPayload (J.obj fs) = none := by
      unfold HttpGet.extractPayload
      rw [htype]
      rfl
    unfold HttpGet.processLine
    dsimp only
    rw [hep]
  · simp [SocketNs.handleMessage, htype]

/-- One previously delivered record, used to show the socket handler leaves
existing data untouched. -/
def sockPrev : SocketNs.SockRec :=
  ⟨J.n 7, J.undef, J.undef, J.undef, J.undef, J.undef, J.undef, J.undef,
    J.undef, J.undef, J.undef, J.undef, J.undef, J.undef⟩

/-- Witness for C6: the `{type: "ping"}` envelope is dropped by both
normalizers. -/
theorem claim6_witness :
    HttpGet.fetchAllData [.parsed (J.obj [("type", J.s "ping")])] = ⟨[], J.null⟩ ∧
    SocketNs.handleMessage (some (J.obj [("type", J.s "ping")])) [sockPrev] = [sockPrev] :=
  claim6_envelope_filter [("type", J.s "ping")] [sockPrev] rfl

/-- The claim's test record `{btc: 1.5, doge: 2}` as a wire object. -/
def itemBtcDoge : J := J.obj [("btc", J.n (mkRat 3 2)), ("doge", J.n 2)]

/-- The claim's test record as a day-record for the POST pipeline. -/
def dayBtcDoge : DayRec := { btc := J.n (mkRat 3 2), doge := J.n 2 }

/-- C7, counterexample. The claim says the Payload Normalizer maps `doge`
to `dog` AND `btc` to `bit` (with fallback), so `{btc: 1.5, doge: 2}`
should produce `bit: 1.5, dog: 2`. No single normalizer does both: the
WebSocket mapper takes `bit` from `btc || bit` but reads `dog` from
`item.dog` (so `dog` comes out `undefined`, not `2`), and the POST
pipeline mapper takes `dog` from `doge` but reads `bit` from
`dayArray.bit` (so `bit` comes out `undefined`, not `1.5`). -/
theorem claim7_counterexample :
    (SocketNs.mapItem itemBtcDoge).map (fun r => r.bit) = .ok (J.n (mkRat 3 2)) ∧
    (SocketNs.mapItem itemBtcDoge).map (fun r => r.dog) = .ok J.undef ∧
    J.undef ≠ J.n 2 ∧
    (PostSvc.mapDay dayBtcDoge).dog = J.n 2 ∧
    (PostSvc.mapDay dayBtcDoge).bit = J.undef ∧
    J.undef ≠ J.n (mkRat 3 2) := by
  refine ⟨rfl, rfl, ?_, rfl, rfl, ?_⟩
  · intro h
    exact J.noConfusion h
  · intro h
    exact J.noConfusion h

/-- C7, amended. The field renames are split across the two normalizer
variants: in the WebSocket handler `bit` is `item.btc || item.bit`
(fallback to a pre-existing `bit` when `btc` is absent or falsy) while
`dog` is read from `item.dog` (the backend `doge` field is not renamed
there); in the POST pipeline `dog` is read from `dayArray.doge` while
`bit` is read from `dayArray.bit` (`btc` is not consulted). Neither output
shape carries `btc`/`doge` keys. -/
theorem claim7_field_renames (item : J) (r : SocketNs.SockRec) (d : DayRec)
    (h : SocketNs.mapItem item = .ok r) :
    r.bit = jsOr (jGet item "btc") (jGet item "bit") ∧
    r.dog = jGet item "dog" ∧
    (PostSvc.mapDay d).dog = d.doge ∧
    (PostSvc.mapDay d).bit = d.bit := by
  refine ⟨?_, ?_, rfl, rfl⟩ <;>
  · cases item <;>
      first
      | exact absurd h (by intro hc; exact Except.noConfusion hc)
      | (injection h with h2; rw [← h2])

/-- Witness for C7 amended, on the claim's own test record. -/
theorem claim7_witness :
    (⟨J.undef, J.undef, J.undef, J.undef, J.undef, J.undef, J.undef, J.undef,
        J.n (mkRat 3 2), J.undef, J.undef, J.undef, J.undef, J.undef⟩ : SocketNs.SockRec).bit =
      jsOr (jGet itemBtcDoge "btc") (jGet itemBtcDoge "bit") ∧
    (⟨J.undef, J.undef, J.undef, J.undef, J.undef, J.undef, J.undef, J.undef,
        J.n (mkRat 3 2), J.undef, J.undef, J.undef, J.undef, J.undef⟩ : SocketNs.SockRec).dog =
      jGet itemBtcDoge "dog" ∧
    (PostSvc.mapDay dayBtcDoge).dog = dayBtcDoge.doge ∧
    (PostSvc.mapDay dayBtcDoge).bit = dayBtcDoge.bit :=
  claim7_field_renames itemBtcDoge
    ⟨J.undef, J.undef, J.undef, J.undef, J.undef, J.undef, J.undef, J.undef,
      J.n (mkRat 3 2), J.undef, J.undef, J.undef, J.undef, J.undef⟩ dayBtcDoge rfl

/-- C8, confirmed. A line that fails to parse as JSON is skipped (after
logging) and the pass continues: the streaming normalizer's result over
any line sequence containing a malformed line equals its result with that
line removed, and the batch is never aborted (the run is total and all
other lines still contribute). -/
theorem claim8_malformed_skipped (pre post : List HttpGet.LineV) :
    HttpGet.fetchAllData (pre ++ HttpGet.LineV.malformed :: post) =
      HttpGet.fetchAllData (pre ++ post) := by
  have hrun : HttpGet.runLines (pre ++ HttpGet.LineV.malformed :: post) =
      HttpGet.runLines (pre ++ post) := by
    unfold HttpGet.runLines
    rw [List.foldlM_append, List.foldlM_append]
    refine bind_congr fun st => ?_
    rw [List.foldlM_cons]
    rfl
  unfold HttpGet.fetchAllData
  rw [hrun]

namespace HttpPost

/-- `String(value)` for the value shapes `parseTime` receives. Non-integer
number formatting and array joining are not modelled (no theorem below
evaluates them); integers, strings and the primitive constants follow
JS. -/
def jsToString : J → String
  | .s st => st
  | .n q => if q.den = 1 then toString q.num else ""
  | .b true => "true"
  | .b false => "false"
  | .null => "null"
  | .undef => "undefined"
  | .nan => "NaN"
  | .arr _ => ""
  | .obj _ => "[object Object]"

/-- Unary `+` on the sliced substrings of `parseTime`: an empty slice gives
0, a pure digit sequence its value, anything else `NaN` (`none`). The
slices of a 12-digit timestamp never carry signs, decimals or
whitespace. -/
def unaryPlus (s : String) : Option Int :=
  if s.data = [] then some 0
  else if s.data.all fun c => c.isDigit then
    some ((s.data.foldl (fun a c => a * 10 + (c.toNat - 48)) 0 : Nat) : Int)
  else none

/-- `Date.UTC(y, mIdx, d, h, mi, 0)`: two-digit years map into the 1900s,
the month index carries into the year, day/hour/minute are added
linearly. -/
def dateUTC (y mIdx d h mi : Int) : Int :=
  let yy := if 0 ≤ y ∧ y ≤ 99 then y + 1900 else y
  let ym := yy + Int.fdiv mIdx 12
  let nm := Int.fmod mIdx 12 + 1
  daysFromCivil ym nm d * 86400000 + h * 3600000 + mi * 60000

/-- Embedding of the `parseTime` helper of `LoginfetchAllData`
(src/frontend/src/services/Http_Post.jsx, lines 115-124): slice the
stringified value into `YYYY MM DD HH MM` and build a UTC epoch value; a
non-numeric slice makes the result `NaN`. -/
def parseTime (value : J) : J :=
  let str := jsToString value
  match unaryPlus (str.take 4), (unaryPlus ((str.drop 4).take 2)).map (fun m => m - 1),
      unaryPlus ((str.drop 6).take 2), unaryPlus ((str.drop 8).take 2),
      unaryPlus ((str.drop 10).take 2) with
  | some y, some mo, some d, some h, some mi => J.n ((dateUTC y mo d h mi : Int) : ℚ)
  | _, _, _, _, _ => J.nan

/-- The per-day arrow function of this variant's `allData` mapping
(lines 127-139): same renames as the `services/POST` variant, but `time`
goes through `parseTime` instead of the string formatter. -/
def mapDay (dayArray : DayRec) : PostSvc.ProjDay :=
  { why := dayArray.why
    position := dayArray.position
    total := dayArray.total
    time := parseTime dayArray.time
    non := dayArray.non
    bit := dayArray.bit
    eth := dayArray.eth
    dog := dayArray.doge
    sol := dayArray.sol
    xrp := dayArray.xrp
    usemodel := dayArray.usemodel }

/-- The per-user arrow function of this variant's mapping
(lines 126-160). -/
def mapUser (item : List DayRec) : Except String PostSvc.UserSeries :=
  let userData := item.map mapDay
  match item.head? with
  | none => .error "TypeError"
  | some first =>
    .ok
      { userId := first.userId
        username := first.username
        colors := first.colors
        logo := first.logo
        usemodel := userData.map fun d => d.usemodel
        why := userData.map fun d => d.why
        position := userData.map fun d => d.position
        total := userData.map fun d => d.total
        time := userData.map fun d => d.time
        non := userData.map fun d => d.non
        bit := userData.map fun d => d.bit
        eth := userData.map fun d => d.eth
        dog := userData.map fun d => d.dog
        sol := userData.map fun d => d.sol
        xrp := userData.map fun d => d.xrp }

/-- `data.map(item => ...)` of this variant; a thrown `TypeError` lands in
the outer `catch`. -/
def allDataMap : List (List DayRec) → Except String (List PostSvc.UserSeries)
  | [] => .ok []
  | item :: rest => do
    let r ← mapUser item
    let rs ← allDataMap rest
    pure (r :: rs)

/-- The `defaultAllData` literal of this variant (lines 73-91): one
placeholder user, already in output shape. -/
def defaultAllData : List PostSvc.UserSeries :=
  [{ userId := J.s "default_user_01"
     username := J.s "Default Bot"
     colors := J.s "#cccccc"
     logo := J.s "default_logo.png"
     usemodel := [J.null]
     why := [J.null]
     position := [J.null]
     total := [J.n 0]
     time := [J.n 0]
     non := [J.null]
     bit := [J.null]
     eth := [J.null]
     dog := [J.null]
     sol := [J.null]
     xrp := [J.null] }]

/-- Value returned by this variant: `check` is a JS value because the
empty-data branch returns `{ allData, cachlastTime }` with no `check` key
at all (so `check` is `undefined` there, which home's `check === false`
test does not treat as failure). -/
structure HPResult where
  allData : List PostSvc.UserSeries
  check : J
  cachlastTime : J

/-- Parsed `/api/wallet` body for this variant: a falsy or empty value
(`!data || data.length === 0`), a JSON array of per-user day arrays, or a
truthy non-array on which `data.map` throws. -/
inductive HPJson where
  | emptyData
  | rows (rows : List (List DayRec))
  | malformed

/-- Outcome of this variant's `fetch`. -/
inductive HPFetchOutcome where
  | err
  | resp (ok : Bool) (json : Option HPJson)

/-- Embedding of `LoginfetchAllData`
(src/frontend/src/services/Http_Post.jsx, lines 72-171): network failure,
a non-ok status, a body `res.json()` rejects on, and a `data.map` throw
all end in the `catch`, which returns the default with `check: false`;
falsy/empty data returns the default with `cachlastTime: 0` and no
`check`; otherwise the mapped data is returned with `check: true`. -/
def LoginfetchAllData (outcome : HPFetchOutcome) : HPResult :=
  match outcome with
  | .err => ⟨defaultAllData, J.b false, J.undef⟩
  | .resp ok json =>
    if ok then
      match json with
      | none => ⟨defaultAllData, J.b false, J.undef⟩
      | some .emptyData => ⟨defaultAllData, J.undef, J.n 0⟩
      | some .malformed => ⟨defaultAllData, J.b false, J.undef⟩
      | some (.rows rows) =>
        if rows.length = 0 then ⟨defaultAllData, J.undef, J.n 0⟩
        else
          match allDataMap rows with
          | .ok all => ⟨all, J.b true, J.undef⟩
          | .error _ => ⟨defaultAllData, J.b false, J.undef⟩
    else ⟨defaultAllData, J.b false, J.undef⟩

/-- A fetch attempt that fails in the sense of the retry claim: network
rejection, non-ok HTTP status, or an unparseable body. -/
def fetchFailed (o : HPFetchOutcome) : Prop :=
  o = .err ∨ (∃ j, o = .resp false j) ∨ o = .resp true none

/-- Every failing outcome makes this variant return the default dataset
with `check: false`. -/
theorem LoginfetchAllData_failed (o : HPFetchOutcome) (h : fetchFailed o) :
    LoginfetchAllData o = ⟨defaultAllData, J.b false, J.undef⟩ := by
  rcases h with h | ⟨j, h⟩ | h <;> rw [h] <;> rfl

end HttpPost

namespace HomeRetry

/-- Observable outcome of the initial-fetch effect of `Home`
(src/frontend/src/pages/home.jsx, second variant, lines 319-357): the
dataset passed to `setInitData`, the number of `LoginfetchAllData` calls
made, and the `setTimeout` backoff delays awaited (in ms). -/
structure FetchTrace where
  init : List PostSvc.UserSeries
  calls : Nat
  sleeps : List Nat

/-- The `while (attempt < maxRetries)` loop body, by remaining attempts:
each iteration calls `LoginfetchAllData` (the `results` argument gives the
result of the i-th call); `check === false` counts a failed attempt,
records the returned data in `finalAllData`, sleeps 200 ms and retries;
any other `check` resolves immediately via `setInitData(allData)`; an
exhausted loop resolves with the last recorded `finalAllData`. -/
def fetchDataGo (results : Nat → HttpPost.HPResult) :
    Nat → Nat → List PostSvc.UserSeries → List Nat → FetchTrace
  | 0, calls, finalAllData, sleeps => ⟨finalAllData, calls, sleeps⟩
  | n + 1, calls, _, sleeps =>
    let r := results calls
    if jeqStrict r.check (J.b false) then
      fetchDataGo results n (calls + 1) r.allData (sleeps ++ [200])
    else ⟨r.allData, calls + 1, sleeps⟩

/-- The whole `fetchData` run: `maxRetries = 3`, `attempt = 0`,
`finalAllData = []`. -/
def fetchData (results : Nat → HttpPost.HPResult) : FetchTrace :=
  fetchDataGo results 3 0 [] []

end HomeRetry

/-- C9, confirmed. The initial fetch retries exactly 3 times with a fixed
200 ms backoff after each failed attempt: when the first three
`LoginfetchAllData` results come from failing fetches, the loop makes
exactly 3 calls, sleeps `[200, 200, 200]`, and resolves (no exception; the
embedding is a total function) to the built-in `defaultAllData`
placeholder dataset. -/
theorem claim9_retry_exhaustion (results : Nat → HttpPost.HPResult)
    (outs : Nat → HttpPost.HPFetchOutcome)
    (hres : ∀ i, i < 3 → results i = HttpPost.LoginfetchAllData (outs i))
    (hfail : ∀ i, i < 3 → HttpPost.fetchFailed (outs i)) :
    HomeRetry.fetchData results = ⟨HttpPost.defaultAllData, 3, [200, 200, 200]⟩ := by
  have hkey : ∀ i, i < 3 →
      results i = ⟨HttpPost.defaultAllData, J.b false, J.undef⟩ := by
    intro i hi
    rw [hres i hi]
    exact HttpPost.LoginfetchAllData_failed (outs i) (hfail i hi)
  have h0 := hkey 0 (by omega)
  have h1 := hkey 1 (by omega)
  have h2 := hkey 2 (by omega)
  show HomeRetry.fetchDataGo results 3 0 [] [] = _
  rw [show (3 : Nat) = 2 + 1 from rfl, HomeRetry.fetchDataGo, h0]
  rw [show jeqStrict (HttpPost.HPResult.check ⟨HttpPost.defaultAllData, J.b false, J.undef⟩)
    (J.b false) = true from rfl]
  rw [if_pos rfl]
  rw [show (2 : Nat) = 1 + 1 from rfl, HomeRetry.fetchDataGo, h1]
  rw [show jeqStrict (HttpPost.HPResult.check ⟨HttpPost.defaultAllData, J.b false, J.undef⟩)
    (J.b false) = true from rfl]
  rw [if_pos rfl]
  rw [show (1 : Nat) = 0 + 1 from rfl, HomeRetry.fetchDataGo, h2]
  rw [show jeqStrict (HttpPost.HPResult.check ⟨HttpPost.defaultAllData, J.b false, J.undef⟩)
    (J.b false) = true from rfl]
  rw [if_pos rfl]
  rfl

/-- Witness for C9: three consecutive network failures. -/
theorem claim9_witness :
    HomeRetry.fetchData (fun _ => HttpPost.LoginfetchAllData .err) =
      ⟨HttpPost.defaultAllData, 3, [200, 200, 200]⟩ :=
  claim9_retry_exhaustion (fun _ => HttpPost.LoginfetchAllData .err) (fun _ => .err)
    (fun _ _ => rfl) (fun _ _ => Or.inl rfl)

namespace HttpPost

/-- `version.replace(/\//g, '-')`: every `/` becomes `-`. -/
def replaceSlashes (s : String) : String :=
  String.mk (s.data.map fun c => if c = '/' then '-' else c)

/-- Outcome of the `versionCheck` fetch: network rejection, or a response
with its `ok` flag and parsed JSON body (`none` models `res.json()`
rejecting). -/
inductive VFetchOutcome where
  | err
  | resp (ok : Bool) (json : Option J)

/-- Embedding of `versionCheck`
(src/frontend/src/services/Http_Post.jsx, lines 1-24). The second
component records the `versionStr` bodies actually handed to `fetch`.
A falsy `version` throws before any request and the `catch` returns
`false`; a string has its slashes replaced; a non-string truthy value
calls `version.toISOString()`, which only `Date` objects support - `Date`
values are outside this value embedding, so that call throws and the
`catch` returns `false` (no request sent). Every failure path resolves to
`false`; nothing escapes the `catch`, so the embedding is a total
function. -/
def versionCheck (version : J) (f : String → VFetchOutcome) : J × List String :=
  if truthy version then
    match version with
    | .s str =>
      let versionStr := replaceSlashes str
      match f versionStr with
      | .err => (J.b false, [versionStr])
      | .resp ok json =>
        if ok then
          match json with
          | some j => (j, [versionStr])
          | none => (J.b false, [versionStr])
        else (J.b false, [versionStr])
    | _ => (J.b false, [])
  else (J.b false, [])

/-- Slash replacement leaves no `/` in the sent body. -/
theorem replaceSlashes_no_slash (s : String) :
    ∀ c ∈ (replaceSlashes s).data, c ≠ '/' := by
  intro c hc
  obtain ⟨a, _, rfl⟩ := List.mem_map.mp hc
  by_cases h : a = '/'
  · simp [h]
  · simp [h]

end HttpPost

/-- C10, confirmed. `versionCheck` never rejects (the embedding is a total
function: every path, including all throws, ends in the `catch` or a
return): a missing/falsy version resolves to `false` without any request;
a network failure and a non-ok response each resolve to `false`; and every
body actually sent is the version string with every `/` replaced by `-`
(in particular it contains no `/`). -/
theorem claim10_versionCheck (version : J) (f : String → HttpPost.VFetchOutcome) :
    (truthy version = false →
      HttpPost.versionCheck version f = (J.b false, [])) ∧
    (∀ str, version = J.s str → f (HttpPost.replaceSlashes str) = .err →
      (HttpPost.versionCheck version f).1 = J.b false) ∧
    (∀ str j, version = J.s str → f (HttpPost.replaceSlashes str) = .resp false j →
      (HttpPost.versionCheck version f).1 = J.b false) ∧
    (∀ sent ∈ (HttpPost.versionCheck version f).2, ∃ str, version = J.s str ∧
      sent = HttpPost.replaceSlashes str ∧ ∀ c ∈ sent.data, c ≠ '/') := by
  refine ⟨?_, ?_, ?_, ?_⟩
  · intro h
    unfold HttpPost.versionCheck
    rw [h]
    rfl
  · intro str hv hf
    subst hv
    by_cases ht : truthy (J.s str) = true
    · unfold HttpPost.versionCheck
      rw [ht, if_pos rfl]
      dsimp only
      rw [hf]
    · unfold HttpPost.versionCheck
      rw [Bool.not_eq_true] at ht
      rw [ht]
      rfl
  · intro str j hv hf
    subst hv
    by_cases ht : truthy (J.s str) = true
    · unfold HttpPost.versionCheck
      rw [ht, if_pos rfl]
      dsimp only
      rw [hf]
      rfl
    · unfold HttpPost.versionCheck
      rw [Bool.not_eq_true] at ht
      rw [ht]
      rfl
  · intro sent hsent
    unfold HttpPost.versionCheck at hsent
    by_cases ht : truthy version = true
    · rw [ht, if_pos rfl] at hsent
      cases version with
      | s str =>
        dsimp only at hsent
        refine ⟨str, rfl, ?_⟩
        cases hf : f (HttpPost.replaceSlashes str) with
        | err =>
          rw [hf] at hsent
          simp at hsent
          exact ⟨hsent, hsent ▸ HttpPost.replaceSlashes_no_slash str⟩
        | resp ok json =>
          rw [hf] at hsent
          cases ok with
          | false =>
            simp at hsent
            exact ⟨hsent, hsent ▸ HttpPost.replaceSlashes_no_slash str⟩
          | true =>
            cases json with
            | none =>
              simp at hsent
              exact ⟨hsent, hsent ▸ HttpPost.replaceSlashes_no_slash str⟩
            | some j =>
              simp at hsent
              exact ⟨hsent, hsent ▸ HttpPost.replaceSlashes_no_slash str⟩
      | undef => simp at hsent
      | null => simp at hsent
      | nan => simp at hsent
      | b v => simp at hsent
      | n v => simp at hsent
      | arr es => simp at hsent
      | obj fs => simp at hsent
    · rw [Bool.not_eq_true] at ht
      rw [ht] at hsent
      simp at hsent

/-- Witness for C10: a version string containing slashes, with a failing
request: the result is `false` and the sent body has the slashes
replaced. -/
theorem claim10_witness :
    (HttpPost.versionCheck (J.s "2025/11/01") (fun _ => .err)).1 = J.b false :=
  (claim10_versionCheck (J.s "2025/11/01") (fun _ => .err)).2.1 "2025/11/01" rfl rfl
